import Mathlib

/-!
Verification of the plaid2text classification-and-rendering pipeline.

This file is a shallow embedding of the relevant parts of the repository
(plaid2text.py, renderers.py, storage_manager.py) into Lean.  Python dicts
holding JSON-like data are modelled as association lists over `JVal`;
dynamically typed Python variables that can hold either a string or a list
of strings are modelled by `PyVal`; Python exceptions are modelled by
`Except PyErr`.  Calendar dates are modelled as integers: ISO `YYYY-MM-DD`
strings compare lexicographically exactly as the dates they denote, so the
string comparisons performed by the SQLite backend are order-isomorphic to
integer comparisons.
-/

/-- A JSON-like value as stored in MongoDB documents / SQLite JSON columns.
`jstrlist` covers the one place a list of strings is stored (the `tags`
default in `TEXT_DOC`). -/
inductive JVal where
  | jstr : String → JVal
  | jint : Int → JVal
  | jbool : Bool → JVal
  | jnull : JVal
  | jstrlist : List String → JVal
deriving DecidableEq, Repr

/-- Python exceptions that the embedded code can raise. -/
inductive PyErr where
  | nameError : String → PyErr
  | attributeError : String → PyErr
  | keyError : String → PyErr
deriving DecidableEq, Repr

/-- A dynamically typed Python variable that holds either a `str` or a
`list` of strings (the `tags` variable in `renderers.py` takes both types). -/
inductive PyVal where
  | str : String → PyVal
  | list : List String → PyVal
deriving DecidableEq, Repr

/-- Python truthiness for `PyVal`: empty string and empty list are falsy. -/
def PyVal.truthy : PyVal → Bool
  | .str s => s ≠ ""
  | .list l => l ≠ []

/-- Python `len` for `PyVal`. -/
def PyVal.pyLen : PyVal → Nat
  | .str s => s.length
  | .list l => l.length

/-- One transaction as fetched from the source (Plaid), with the fields the
storage layer touches: `transaction_id`, `account_id`, `date`, `name`,
`amount`, `pending`. -/
structure SourceTx where
  transaction_id : String
  account_id : String
  date : Int
  name : String
  amount : Int
  pending : Bool
deriving DecidableEq, Repr

/-- `json.dumps(t)` for a source transaction: the serialized object has
exactly the source keys.  In particular it never contains a
`pulled_to_file` key. -/
def SourceTx.toJson (t : SourceTx) : List (String × JVal) :=
  [("transaction_id", .jstr t.transaction_id),
   ("account_id", .jstr t.account_id),
   ("date", .jint t.date),
   ("name", .jstr t.name),
   ("amount", .jint t.amount),
   ("pending", .jbool t.pending)]

/-- `json_extract(obj, key)` / dict lookup: first binding of the key. -/
def jsonExtract (obj : List (String × JVal)) (key : String) : Option JVal :=
  List.lookup key obj

/-! ## The rule-matching engine (renderers.py, OutputRenderer)

`read_mapping_file` compiles a pattern wrapped in `/.../` with `re.I` and the
match test is `compiled.match(desc)` — anchored at position 0, case
insensitive, and a partial match suffices.  We embed a matcher for the
regular-expression fragment the rule file uses: literal characters, `.` and
postfix `*`.  Characters other than `.` and `*` are treated as literals. -/

/-- A regex atom: a literal character or `.` (any character). -/
inductive RAtom where
  | lit : Char → RAtom
  | dot : RAtom
deriving DecidableEq, Repr

/-- A regex token: an atom, optionally starred. -/
structure RTok where
  atom : RAtom
  starred : Bool
deriving DecidableEq, Repr

/-- Does an atom match one character, case-insensitively (re.I)? -/
def atomMatch : RAtom → Char → Bool
  | .dot, _ => true
  | .lit a, c => a.toLower == c.toLower

/-- The atom denoted by one pattern character: `.` is the wildcard, any
other character is a literal. -/
def mkAtom (c : Char) : RAtom :=
  if c == '.' then RAtom.dot else RAtom.lit c

/-- Parse a pattern string into tokens.  A `*` with nothing to repeat
is a compile error, modelled as `none`. -/
def parseRE : List Char → Option (List RTok)
  | [] => some []
  | '*' :: _ => none
  | c :: '*' :: rest => (parseRE rest).map (⟨mkAtom c, true⟩ :: ·)
  | c :: rest => (parseRE rest).map (⟨mkAtom c, false⟩ :: ·)

/-- The matcher, anchored at the start of the input (Python `re.match`):
succeeds as soon as the whole pattern is consumed, so a partial (prefix)
match suffices. -/
def matchHere : List RTok → List Char → Bool
  | [], _ => true
  | ⟨a, true⟩ :: rest, s =>
    matchHere rest s ||
      (match s with
       | [] => false
       | c :: cs => atomMatch a c && matchHere (⟨a, true⟩ :: rest) cs)
  | ⟨a, false⟩ :: rest, s =>
    match s with
    | [] => false
    | c :: cs => atomMatch a c && matchHere rest cs
termination_by toks s => (s.length, toks.length)
decreasing_by
  all_goals simp_all
  all_goals omega

/-- `re.compile(pat, re.I).match(s)` as a Boolean: `false` both when the
pattern does not match at position 0 and when the pattern is malformed. -/
def reMatch (pat s : String) : Bool :=
  match parseRE pat.data with
  | some toks => matchHere toks s.data
  | none => false

/-- A rule pattern from the mapping file: `read_mapping_file` turns a row
whose first field is wrapped in `/.../` into a compiled regex and leaves
any other first field as a literal string. -/
inductive Pattern where
  | lit : String → Pattern
  | regex : String → Pattern
deriving DecidableEq, Repr

/-- One mapping (rule): pattern, payee, account, tags.  Rows loaded from
the file carry `tags = row[3:]`, a list; rules appended at runtime carry
the current `tags` variable, which may be a string — hence `PyVal`. -/
structure Mapping where
  pattern : Pattern
  payee : String
  account : String
  tags : PyVal
deriving DecidableEq, Repr

/-- The per-rule hit test in `get_payee_and_account`: string patterns are
compared for equality with the description (`entry.desc == pattern`),
compiled patterns use `pattern.match(entry.desc)`. -/
def ruleHits (p : Pattern) (desc : String) : Bool :=
  match p with
  | .lit s => desc == s
  | .regex pat => reMatch pat desc

/-- Lines 219-231 of renderers.py: iterate over ALL mappings; every hit
overwrites payee, account and tags and sets `found`; there is no `break`
("do not break here, later mapping must win").  Returns
(payee, account, tags, found). -/
def matchPhase (mappings : List Mapping) (desc defaultExpense : String) :
    String × String × PyVal × Bool :=
  mappings.foldl
    (fun acc m => if ruleHits m.pattern desc then (m.payee, m.account, m.tags, true) else acc)
    (desc, defaultExpense, PyVal.str "", false)

/-- Line 233-234 of renderers.py: `if tags: tags = tags[0]`.  Indexing a
list yields its first element; indexing a (necessarily non-empty, else
falsy) string yields its first character. -/
def collapseTags : PyVal → PyVal
  | .str s => if s ≠ "" then .str (s.take 1) else .str s
  | .list [] => .list []
  | .list (t :: _) => .str t

/-- Python `in` on a string is a contiguous-substring test.  `listStarts
needle hay` checks that `needle` is a leading segment of `hay`. -/
def listStarts : List Char → List Char → Bool
  | [], _ => true
  | _ :: _, [] => false
  | a :: as, b :: bs => a == b && listStarts as bs

/-- Does `needle` occur contiguously anywhere in `hay`? -/
def listContainsSeg : List Char → List Char → Bool
  | needle, [] => listStarts needle []
  | needle, b :: rest2 => listStarts needle (b :: rest2) || listContainsSeg needle rest2

/-- Python `value in tags`: substring test on a string, membership on a
list. -/
def pyIn (v : String) : PyVal → Bool
  | .str s => listContainsSeg v.data s.data
  | .list l => l.contains v

/-- Python `tags.remove(value)`: a list removes the first occurrence; a
string has no `remove` attribute, so the call raises `AttributeError`. -/
def pyRemove (t : PyVal) (v : String) : Except PyErr PyVal :=
  match t with
  | .str _ => .error (.attributeError "str-remove")
  | .list l => .ok (.list (l.erase v))

/-- Python `tags.append(value)`: a list appends; a string has no `append`
attribute, so the call raises `AttributeError`. -/
def pyAppend (t : PyVal) (v : String) : Except PyErr PyVal :=
  match t with
  | .str _ => .error (.attributeError "str-append")
  | .list l => .ok (.list (l ++ [v]))

/-- `BeancountRenderer.tagify`: replace spaces with dashes and delete
commas (`value.replace(' ', '-').replace(',', '')` with one-character
needles is a character map followed by a character deletion). -/
def bcTagify (v : String) : String :=
  ⟨(v.data.map (fun c => if c == ' ' then '-' else c)).filter (fun c => c != ',')⟩

/-- Helper for `pySplitWS`: split a character list on whitespace runs,
accumulating the current (reversed) word. -/
def splitWSAux : List Char → List Char → List String
  | [], acc => if acc.isEmpty then [] else [⟨acc.reverse⟩]
  | c :: rest, acc =>
    if c.isWhitespace then
      (if acc.isEmpty then splitWSAux rest [] else ⟨acc.reverse⟩ :: splitWSAux rest [])
    else splitWSAux rest (c :: acc)

/-- Python `s.split()`: split on whitespace, dropping empty pieces. -/
def pySplitWS (s : String) : List String :=
  splitWSAux s.data []

/-- `' '.join(items)`. -/
def joinSpace : List String → String
  | [] => ""
  | [x] => x
  | x :: rest => x ++ " " ++ joinSpace rest

/-- `' '.join('#' + t for t in tags)`: iterating a Python string yields its
characters, a list yields its members. -/
def bcHashJoin : PyVal → String
  | .str s => joinSpace (s.data.map (fun c => "#" ++ c.toString))
  | .list l => joinSpace (l.map ("#" ++ ·))

/-- One pass of the body of the `while value:` loop in
`BeancountRenderer.prompt_for_tags` (lines 401-409): a leading `-` removes
the tagified remainder if present, otherwise the tagified input is appended
if absent. -/
def bcStep (tags : PyVal) (value : String) : Except PyErr PyVal :=
  if value.take 1 == "-" then
    let v := bcTagify (value.drop 1)
    if pyIn v tags then pyRemove tags v else .ok tags
  else
    let v := bcTagify value
    if pyIn v tags then .ok tags else pyAppend tags v

/-- The `while value:` loop of `BeancountRenderer.prompt_for_tags`: each
prompt answer is consumed in order; a blank answer (or the end of the
session input) exits the loop. -/
def bcLoop (tags : PyVal) : List String → Except PyErr PyVal
  | [] => .ok tags
  | v :: rest =>
    if v == "" then .ok tags
    else
      match bcStep tags v with
      | .error e => .error e
      | .ok t2 => bcLoop t2 rest

/-- `BeancountRenderer.prompt_for_tags` (lines 398-415 of renderers.py).
Line 399 initializes `tags` to the STRING
`' '.join('#' + t for t in default.split() if t)` when a default is given,
and to the empty list otherwise; the loop then treats `tags` as a list.
The `inputs` are the successive prompt answers of the session. -/
def beancount_prompt_for_tags (default : String) (inputs : List String) :
    Except PyErr String :=
  let tags : PyVal :=
    if default ≠ "" then
      .str (joinSpace ((pySplitWS default).map ("#" ++ ·)))
    else .list []
  match bcLoop tags inputs with
  | .error e => .error e
  | .ok t => .ok (bcHashJoin t)

/-! ## get_payee_and_account and rule learning (renderers.py 215-269) -/

/-- One CSV row written by `append_mapping_file`: description (literal
pattern), payee, account and a tags field that is either the tags value or
the empty string (`ret_tags = tags if len(tags) > 0 else ''`). -/
structure MapRow where
  desc : String
  payee : String
  account : String
  tags : PyVal
deriving DecidableEq, Repr

/-- `append_mapping_file` (lines 159-164): when a mapping file is
configured, open it in append mode and write one row; existing lines are
untouched. -/
def append_mapping_file (hasMapFile : Bool) (file : List MapRow)
    (desc payee account : String) (tags : PyVal) : List MapRow :=
  if hasMapFile then
    let ret_tags : PyVal := if tags.pyLen > 0 then tags else .str ""
    file ++ [⟨desc, payee, account, ret_tags⟩]
  else file

/-- The result of `get_payee_and_account`: the returned triple plus the
state it may have mutated (the in-memory mapping list and the mapping
file). -/
structure GPAResult where
  payee : String
  account : String
  tags : PyVal
  mappings : List Mapping
  file : List MapRow
  appended : Bool
deriving Repr

/-- Lines 240-258 of renderers.py: the console block of
`get_payee_and_account`.  For each of payee and account,
`value = prompt_for_value(...)` returns the answer or, when blank, the
default; `if value:` then folds `value != current` into `modified` and
adopts the value.  For tags (only when `options.tags` is set),
`prompt_for_tags` returns its final string and a non-empty result is
compared and adopted the same way.  Returns
(payee, account, tags, modified). -/
def promptBlock (payee0 account0 : String) (tags0 : PyVal) (promptTags : Bool)
    (payeeResp accountResp tagsResp : String) : String × String × PyVal × Bool :=
  let v1 := if payeeResp ≠ "" then payeeResp else payee0
  let m1 := if v1 ≠ "" then decide (v1 ≠ payee0) else false
  let payee1 := if v1 ≠ "" then v1 else payee0
  let v2 := if accountResp ≠ "" then accountResp else account0
  let m2 := if v2 ≠ "" then (m1 || decide (v2 ≠ account0)) else m1
  let account1 := if v2 ≠ "" then v2 else account0
  if promptTags then
    let m3 := if tagsResp ≠ "" then (m2 || decide (PyVal.str tagsResp ≠ tags0)) else m2
    let tags1 := if tagsResp ≠ "" then PyVal.str tagsResp else tags0
    (payee1, account1, tags1, m3)
  else (payee1, account1, tags0, m2)

/-- `OutputRenderer.get_payee_and_account` (lines 215-269).  The console
answers of the session are `payeeResp` and `accountResp` (for
`prompt_for_value`, a blank answer keeps the default) and `tagsResp` (the
string returned by the dialect's `prompt_for_tags`; only consulted when
`promptTags`, i.e. `options.tags`, is set).  `quiet` is `options.quiet`.

After the match loop and the `tags = tags[0]` collapse, the human is
consulted unless `quiet and found`; `modified` records whether any accepted
answer differs from the proposal; finally, when `not found or (found and
modified)`, the literal rule `(desc, payee, account, tags)` is appended to
the in-memory mappings and to the mapping file. -/
def get_payee_and_account (mappings : List Mapping) (hasMapFile : Bool)
    (file : List MapRow) (desc defaultExpense : String)
    (quiet promptTags : Bool) (payeeResp accountResp tagsResp : String) :
    GPAResult :=
  let (payee0, account0, tagsRaw, found) := matchPhase mappings desc defaultExpense
  let tags0 := collapseTags tagsRaw
  let (payee, account, tags, modified) :=
    if quiet && found then (payee0, account0, tags0, false)
    else promptBlock payee0 account0 tags0 promptTags payeeResp accountResp tagsResp
  if !found || modified then
    { payee := payee, account := account, tags := tags,
      mappings := mappings ++ [⟨.lit desc, payee, account, tags⟩],
      file := append_mapping_file hasMapFile file desc payee account tags,
      appended := true }
  else
    { payee := payee, account := account, tags := tags,
      mappings := mappings, file := file, appended := false }

/-! ## Entry.journal_entry (renderers.py 73-98) -/

/-- One segment of a format-string template: literal text or a
`{field}` placeholder. -/
inductive TSeg where
  | lit : String → TSeg
  | field : String → TSeg
deriving DecidableEq, Repr

/-- Python `template.format(**format_data)`: substitute each placeholder
with the bound value; a placeholder whose name is not a key of
`format_data` raises `KeyError`. -/
def pyFormat : List TSeg → List (String × String) → Except PyErr String
  | [], _ => .ok ""
  | .lit s :: rest, data =>
    match pyFormat rest data with
    | .ok r => .ok (s ++ r)
    | .error e => .error e
  | .field k :: rest, data =>
    match List.lookup k data with
    | some v =>
      match pyFormat rest data with
      | .ok r => .ok (v ++ r)
      | .error e => .error e
    | none => .error (.keyError k)

/-- `Entry.journal_entry` (lines 73-98).  `custom` is the per-account
template file content (`none` when `transaction_template` is the empty
string); `transaction` is the entry's transaction dict rendered to strings
(date, name, amount, posting_account, ...); `addons` is
`transaction['addons']` (empty when no addons are configured for the
account).  `format_data` starts from {associated_account, payee, tags},
then `update(addons)` and `update(transaction)` — so on duplicate keys the
transaction wins over addons, which win over the base dict. -/
def journal_entry (output_format : String)
    (def_ledger def_beancount : List TSeg) (custom : Option (List TSeg))
    (transaction addons : List (String × String))
    (payee account tags : String) : Except PyErr String :=
  let def_template := if output_format == "ledger" then def_ledger else def_beancount
  let template := match custom with | some t => t | none => def_template
  let ret_tags :=
    if output_format == "beancount" then (if tags ≠ "" then " " ++ tags else "")
    else (if tags ≠ "" then " ; " ++ tags else "")
  let format_data :=
    transaction ++ addons ++
      [("associated_account", account), ("payee", payee), ("tags", ret_tags)]
  pyFormat template format_data

/-! ## MongoDBStorage (storage_manager.py 46-104)

A Mongo document for a transaction has `_id = transaction_id`, the
top-level source fields, and a `plaid2text` subdocument (an association
list of `JVal`).  `datetime` values are modelled as integers. -/

/-- `TEXT_DOC['plaid2text']`: the default metadata attached by
`$setOnInsert`.  `dd` is `datetime.datetime.today()` (evaluated once at
module import).  `date_last_pulled` defaults to the empty string and
`pulled_to_file` to `False`. -/
def textDoc (dd : Int) : List (String × JVal) :=
  [("tags", .jstrlist []),
   ("payee", .jstr ""),
   ("posting_account", .jstr ""),
   ("associated_account", .jstr ""),
   ("date_downloaded", .jint dd),
   ("date_last_pulled", .jstr ""),
   ("pulled_to_file", .jbool false)]

/-- One document of the per-account Mongo collection. -/
structure MongoDoc where
  id : String
  tx : SourceTx
  meta : List (String × JVal)
deriving DecidableEq, Repr

/-- The upsert of `MongoDBStorage.save_transactions` for one transaction:
`update_many({'_id': id}, {'$set': t, '$setOnInsert': TEXT_DOC}, True)` —
an existing document gets its source fields replaced and keeps its
`plaid2text`; a fresh document is inserted with `TEXT_DOC` defaults. -/
def mongoUpsert (docs : List MongoDoc) (t : SourceTx) (dd : Int) : List MongoDoc :=
  if docs.any (fun d => d.id == t.transaction_id) then
    docs.map (fun d => if d.id == t.transaction_id then { d with tx := t } else d)
  else
    docs ++ [{ id := t.transaction_id, tx := t, meta := textDoc dd }]

/-- `MongoDBStorage.save_transactions` (lines 56-67): pending transactions
are skipped; each other transaction is upserted by `_id`.  (The
`t['date']` string is parsed to a datetime; dates are integers here.) -/
def mongo_save_transactions (docs : List MongoDoc) (transactions : List SourceTx)
    (dd : Int) : List MongoDoc :=
  transactions.foldl (fun s t => if t.pending then s else mongoUpsert s t dd) docs

/-- The `only_new` part of the Mongo query:
`{'plaid2text.pulled_to_file': {'$ne': True}}` matches documents whose
field is absent or differs from `true`. -/
def mongoOnlyNewCond (only_new : Bool) (d : MongoDoc) : Bool :=
  if only_new then
    match jsonExtract d.meta "pulled_to_file" with
    | some (.jbool true) => false
    | _ => true
  else true

/-- The date part of the Mongo query (lines 74-79): both bounds are used
only when `from_date <= to_date`; with only one bound the corresponding
one-sided comparison is used; otherwise no date condition at all. -/
def mongoDateCond (fromD toD : Option Int) (d : Int) : Bool :=
  match fromD, toD with
  | some f, some t => if f ≤ t then decide (f ≤ d) && decide (d ≤ t) else true
  | some f, none => decide (f ≤ d)
  | none, some t => decide (d ≤ t)
  | none, none => true

/-- Comparison used by `.sort('date', ASCENDING)`. -/
def mongoDateLE (a b : MongoDoc) : Bool :=
  a.tx.date ≤ b.tx.date

/-- `MongoDBStorage.get_transactions` (lines 69-82): filter by the query,
sort ascending by date. -/
def mongo_get_transactions (docs : List MongoDoc) (fromD toD : Option Int)
    (only_new : Bool) : List MongoDoc :=
  (docs.filter (fun d => mongoOnlyNewCond only_new d && mongoDateCond fromD toD d.tx.date)).mergeSort
    mongoDateLE

/-- The update object handed to `update_transaction`: the dict built in
`_process_plaid_transactions` with its `transaction_id` (which
`update_transaction` pops) and the remaining fields. -/
structure UpdateDic where
  transaction_id : String
  fields : List (String × JVal)
deriving DecidableEq, Repr

/-- `update_one` updates the first document matching the filter. -/
def mongoSetMetaFirst : List MongoDoc → String → List (String × JVal) → List MongoDoc
  | [], _, _ => []
  | d :: ds, id, m =>
    if d.id == id then { d with meta := m } :: ds else d :: mongoSetMetaFirst ds id m

/-- The value stored for `update['pulled_to_file'] = mark_pulled`:
`mark_pulled` is a Python optional Boolean (`None` when the argument is
omitted). -/
def jOfOptBool : Option Bool → JVal
  | none => .jnull
  | some b => .jbool b

/-- `MongoDBStorage.update_transaction` (lines 84-93): pop the id, set
`pulled_to_file` to `mark_pulled` (possibly `None`), stamp
`date_last_pulled = datetime.now()` only when `mark_pulled` is truthy, then
`$set` the WHOLE `plaid2text` subdocument to the update dict — whatever
metadata the document had before is replaced. -/
def mongo_update_transaction (docs : List MongoDoc) (upd : UpdateDic)
    (mark_pulled : Option Bool) (now : Int) : List MongoDoc :=
  let update := upd.fields ++ [("pulled_to_file", jOfOptBool mark_pulled)]
  let update :=
    if mark_pulled.getD false then update ++ [("date_last_pulled", .jint now)] else update
  mongoSetMetaFirst docs upd.transaction_id update

/-! ## SQLiteStorage (storage_manager.py 106-208) -/

/-- One row of the `transactions` table:
`(account_id, transaction_id, created, updated, plaid_json, metadata)`.
`plaid_json` is the serialized source transaction, `metadata` the
serialized `plaid2text` dict or NULL. -/
structure SqliteRow where
  account_id : String
  transaction_id : String
  created : Int
  updated : Int
  plaid_json : List (String × JVal)
  metadata : Option (List (String × JVal))
deriving DecidableEq, Repr

/-- The upsert of `SQLiteStorage.save_transactions` for one transaction.
`metadata = t.get('plaid2text', None)` — a source transaction carries no
`plaid2text` key, so the bound metadata is NULL.  On conflict of the
unique `(account_id, transaction_id)` index, `DO UPDATE` overwrites
`updated`, `plaid_json` AND `metadata` with the excluded (incoming)
values. -/
def sqliteUpsert (rows : List SqliteRow) (t : SourceTx) (now : Int) : List SqliteRow :=
  if rows.any (fun r => r.account_id == t.account_id && r.transaction_id == t.transaction_id) then
    rows.map (fun r =>
      if r.account_id == t.account_id && r.transaction_id == t.transaction_id then
        { r with updated := now, plaid_json := t.toJson, metadata := none }
      else r)
  else
    rows ++ [{ account_id := t.account_id, transaction_id := t.transaction_id,
               created := now, updated := now, plaid_json := t.toJson, metadata := none }]

/-- `SQLiteStorage.save_transactions` (lines 128-152): every transaction of
the batch (pending ones included — this backend has no pending filter) is
upserted. -/
def sqlite_save_transactions (rows : List SqliteRow) (transactions : List SourceTx)
    (now : Int) : List SqliteRow :=
  transactions.foldl (fun s t => sqliteUpsert s t now) rows

/-- The `only_new` condition of the SQLite query (line 159):
`coalesce(json_extract(plaid_json, '$.pulled_to_file'), false) = false`.
Note it reads `plaid_json` — the serialized SOURCE transaction — not the
`metadata` column where `update_transaction` would record the pulled
state. -/
def sqliteOnlyNewCond (only_new : Bool) (r : SqliteRow) : Bool :=
  if only_new then
    match jsonExtract r.plaid_json "pulled_to_file" with
    | none => true
    | some (.jbool b) => !b
    | some _ => false
  else true

/-- The date condition of the SQLite query (lines 162-170), on
`json_extract(plaid_json, '$.date')`; same branch structure as Mongo.  A
row without a date never satisfies a SQL comparison with NULL. -/
def sqliteDateCond (fromD toD : Option Int) (r : SqliteRow) : Bool :=
  let d? := jsonExtract r.plaid_json "date"
  match fromD, toD with
  | some f, some t =>
    if f ≤ t then
      match d? with
      | some (.jint d) => decide (f ≤ d) && decide (d ≤ t)
      | _ => false
    else true
  | some f, none =>
    (match d? with | some (.jint d) => decide (f ≤ d) | _ => false)
  | none, some t =>
    (match d? with | some (.jint d) => decide (d ≤ t) | _ => false)
  | none, none => true

/-- `SQLiteStorage.get_transactions` (lines 154-193): a plain
`select ... where ...` with NO `order by`; rows come back in table order. -/
def sqlite_get_transactions (rows : List SqliteRow) (fromD toD : Option Int)
    (only_new : Bool) : List SqliteRow :=
  rows.filter (fun r => sqliteOnlyNewCond only_new r && sqliteDateCond fromD toD r)

/-- `SQLiteStorage.update_transaction` (lines 195-208): after building the
update dict (pop the id, set `pulled_to_file`, optionally stamp
`date_last_pulled`), line 201 executes `update['archived'] = null`.  The
name `null` is not defined anywhere in the module, so every call raises
`NameError` before the UPDATE statement runs; the store is never changed. -/
def sqlite_update_transaction (rows : List SqliteRow) (upd : UpdateDic)
    (mark_pulled : Option Bool) (now : Int) : Except PyErr (List SqliteRow) :=
  let update := upd.fields ++ [("pulled_to_file", jOfOptBool mark_pulled)]
  let _update2 :=
    if mark_pulled.getD false then update ++ [("date_last_pulled", .jint now)] else update
  .error (.nameError "null")

/-! ## The pipeline marking phase (plaid2text.py 441-457)

`--no-mark-pulled` is declared with `action='store_false'`, so
`options.no_mark_pulled` is `True` on a default run (marking enabled) and
`False` exactly when the user passes the flag.  Lines 450-452 then set

  callback = None
  if options.no_mark_pulled:
      callback = lambda dict: sm.update_transaction(dict, mark_pulled=False)

and `_process_plaid_transactions` invokes the callback on each processed
transaction's update dict. -/

/-- The update dict built per transaction in
`_process_plaid_transactions` (lines 192-197): transaction_id, tags,
associated_account, payee, posting_account. -/
def buildDic (t : MongoDoc) (payee account tags posting : String) : UpdateDic :=
  { transaction_id := t.tx.transaction_id,
    fields := [("tags", .jstr tags), ("associated_account", .jstr account),
               ("payee", .jstr payee), ("posting_account", .jstr posting)] }

/-- The persistence effect of one full pipeline run over the MongoDB
backend: fetch the window's transactions (`only_new = not
--all-transactions`, no date bounds on a default run), classify each
(`classify` abstracts `get_payee_and_account`), and apply the marking
callback — which, when `no_mark_pulled` is `True` (the default,
marking-enabled mode), is `update_transaction(dic, mark_pulled=False)`,
and when the user passed `--no-mark-pulled` is absent. -/
def pipelineMarkPhase (docs : List MongoDoc) (no_mark_pulled : Bool)
    (classify : MongoDoc → String × String × String) (posting : String)
    (now : Int) : List MongoDoc :=
  let trxs := mongo_get_transactions docs none none true
  trxs.foldl
    (fun s t =>
      if no_mark_pulled then
        let (p, a, tg) := classify t
        mongo_update_transaction s (buildDic t p a tg posting) (some false) now
      else s)
    docs

/-! ## Theorems -/

/-- C5: for every rule set (mixing literal and regex rules) and every
description, the match loop iterates all rules in file order without
short-circuiting and yields the (payee, account, tags) of the LAST rule
whose pattern hits the description — literal rules by string equality,
regex rules by an anchored match — and reports no match (payee defaults to
the description, account to the default expense account) when no rule
hits. -/
theorem C5_last_match_wins (mappings : List Mapping) (desc defExp : String) :
    matchPhase mappings desc defExp =
      match (mappings.filter (fun m => ruleHits m.pattern desc)).getLast? with
      | some m => (m.payee, m.account, m.tags, true)
      | none => (desc, defExp, PyVal.str "", false) := by
  induction mappings using List.reverseRecOn with
  | nil => simp [matchPhase]
  | append_singleton l m ih =>
    unfold matchPhase at ih ⊢
    rw [List.foldl_append]
    by_cases h : ruleHits m.pattern desc
    · simp [List.filter_append, h, List.getLast?_concat]
    · simp only [List.foldl_cons, List.foldl_nil, h, Bool.false_eq_true, if_false]
      rw [show List.filter (fun x => ruleHits x.pattern desc) (l ++ [m]) =
            List.filter (fun x => ruleHits x.pattern desc) l by
          simp [List.filter_append, h]]
      exact ih

/-- The metacharacters of Python regular expressions.  A pattern avoiding
all of them is plain literal text. -/
def pythonREMetas : List Char := ".^$*+?()[]|\x7b\x7d\\".data

/-- On a pattern with no `*`, `parseRE` produces one unstarred token per
character. -/
theorem parseRE_plain (cs : List Char) (h : ∀ c ∈ cs, c ≠ '*') :
    parseRE cs = some (cs.map (fun c => RTok.mk (mkAtom c) false)) := by
  induction cs with
  | nil => rfl
  | cons c rest ih =>
    rw [parseRE.eq_def]
    split
    · rename_i heq
      cases heq
    · rename_i tail heq
      obtain ⟨h1, -⟩ := List.cons.injEq .. ▸ heq
      exact absurd (h c (List.mem_cons_self ..)) (by simp [h1])
    · rename_i a rest2 heq
      obtain ⟨rfl, h2⟩ := List.cons.injEq .. ▸ heq
      exact absurd (h '*' (by simp [h2])) (by simp)
    · rename_i a rest2 heq
      obtain ⟨rfl, rfl⟩ := List.cons.injEq .. ▸ heq
      rw [ih (fun x hx => h x (by simp [hx]))]
      rfl

/-- The anchored matcher on a pattern of plain literal characters succeeds
exactly when the lowercased pattern is a leading segment of the lowercased
input. -/
theorem matchHere_lits (cs : List Char) : ∀ ds : List Char,
    (matchHere (cs.map (fun c => RTok.mk (RAtom.lit c) false)) ds = true ↔
      ∃ t, cs.map Char.toLower ++ t = ds.map Char.toLower) := by
  induction cs with
  | nil =>
    intro ds
    simp [matchHere]
  | cons c rest ih =>
    intro ds
    cases ds with
    | nil =>
      simp [matchHere]
    | cons d ds2 =>
      simp only [List.map_cons, matchHere, Bool.and_eq_true, atomMatch, beq_iff_eq]
      constructor
      · rintro ⟨hcd, hm⟩
        obtain ⟨t, ht⟩ := (ih ds2).mp hm
        exact ⟨t, by simp [hcd, ht]⟩
      · rintro ⟨t, ht⟩
        simp only [List.cons_append] at ht
        obtain ⟨h1, h2⟩ := List.cons.injEq .. ▸ ht
        exact ⟨h1, (ih ds2).mpr ⟨t, h2⟩⟩

/-- C10: a regex rule (a `/.../`-wrapped pattern, compiled with `re.I`)
whose pattern is plain literal text hits a description exactly when the
pattern matches starting at the FIRST character of the description
(`re.match` is anchored, and a partial match suffices): the lowercased
pattern must be a leading segment of the lowercased description.  A
pattern occurring only strictly inside the description does not hit —
in contrast with literal rules, which are tested by whole-string
equality. -/
theorem C10_regex_hits_iff_match_at_start (p d : String)
    (h : ∀ c ∈ p.data, c ∉ pythonREMetas) :
    (ruleHits (.regex p) d = true ↔
      ∃ t, p.data.map Char.toLower ++ t = d.data.map Char.toLower)
    ∧ (listContainsSeg (p.data.map Char.toLower) (d.data.map Char.toLower) = true →
        (¬ ∃ t, p.data.map Char.toLower ++ t = d.data.map Char.toLower) →
        ruleHits (.regex p) d = false)
    ∧ (ruleHits (Pattern.lit p) d = true ↔ d = p) := by
  have hstar : ∀ c ∈ p.data, c ≠ '*' := by
    intro c hc e
    exact h c hc (by rw [e]; decide)
  have hdot : ∀ c ∈ p.data, c ≠ '.' := by
    intro c hc e
    exact h c hc (by rw [e]; decide)
  have hmk : p.data.map (fun c => RTok.mk (mkAtom c) false) =
      p.data.map (fun c => RTok.mk (RAtom.lit c) false) :=
    List.map_congr_left (fun a ha => by simp [mkAtom, hdot a ha])
  have hmain : ruleHits (.regex p) d = true ↔
      ∃ t, p.data.map Char.toLower ++ t = d.data.map Char.toLower := by
    show reMatch p d = true ↔ _
    unfold reMatch
    rw [parseRE_plain p.data hstar, hmk]
    exact matchHere_lits p.data d.data
  refine ⟨hmain, fun _ hno => ?_, by simp [ruleHits]⟩
  rcases hb : ruleHits (.regex p) d
  · rfl
  · exact absurd (hmain.mp hb) hno

/-- Sample source transaction used in the concrete storage theorems. -/
def tx1 : SourceTx :=
  { transaction_id := "t1", account_id := "a1", date := 5,
    name := "STARBUCKS 123", amount := 300, pending := false }

/-- C7: in the beancount (hash-tag) dialect, the tag edit session that
starts from default tags ["food"], removes `food` and adds `lunch` does
NOT terminate with `"#lunch"`: because line 399 initializes `tags` to the
string `"#food"` (not a list) whenever a default is present, the removal
step finds `"food"` as a substring and calls `.remove` on a string, which
raises `AttributeError`. -/
theorem C7_tag_edit_session_raises :
    beancount_prompt_for_tags "food" ["-food", "lunch", ""] =
      .error (.attributeError "str-remove") := by
  rfl

/-- C9: rendering a template that contains an addon field that is not
configured (the `addons` dict is empty) raises `KeyError` from
`template.format(**format_data)` — the missing field is NOT replaced by
the empty string. -/
theorem C9_missing_addon_raises_key_error :
    journal_entry "beancount" [] [] (some [TSeg.field "check_number"])
      [("transaction_date", "2024/01/05"), ("name", "STARBUCKS 123"),
       ("transaction_id", "t1"), ("amount", "3.00"), ("currency", "USD"),
       ("posting_account", "Assets:Checking"), ("cleared_character", "*")]
      [] "Coffee Shop" "Expenses:Coffee" "" = .error (.keyError "check_number") := by
  rfl

/-- C1: on a default run (marking enabled: `--no-mark-pulled` absent, so
`options.no_mark_pulled = True` because of `action='store_false'`), the
pipeline's callback is `update_transaction(dic, mark_pulled=False)`.  Over
a store holding the single freshly saved transaction `tx1`, the run
persists `pulled_to_file = False` (and never stamps `date_last_pulled`),
and `get_transactions(only_new=True)` afterwards still returns the
transaction — not the empty set the claim requires.  When the user
explicitly passes `--no-mark-pulled`, the callback is `None` and the store
is not touched at all. -/
theorem C1_marking_enabled_persists_false :
    (pipelineMarkPhase (mongo_save_transactions [] [tx1] 0) true
        (fun _ => ("Coffee Shop", "Expenses:Coffee", "")) "Assets:Checking" 9 =
      [{ id := "t1", tx := tx1,
         meta := [("tags", .jstr ""), ("associated_account", .jstr "Expenses:Coffee"),
                  ("payee", .jstr "Coffee Shop"),
                  ("posting_account", .jstr "Assets:Checking"),
                  ("pulled_to_file", .jbool false)] }])
    ∧ (mongo_get_transactions
        (pipelineMarkPhase (mongo_save_transactions [] [tx1] 0) true
          (fun _ => ("Coffee Shop", "Expenses:Coffee", "")) "Assets:Checking" 9)
        none none true =
      [{ id := "t1", tx := tx1,
         meta := [("tags", .jstr ""), ("associated_account", .jstr "Expenses:Coffee"),
                  ("payee", .jstr "Coffee Shop"),
                  ("posting_account", .jstr "Assets:Checking"),
                  ("pulled_to_file", .jbool false)] }])
    ∧ (pipelineMarkPhase (mongo_save_transactions [] [tx1] 0) false
        (fun _ => ("Coffee Shop", "Expenses:Coffee", "")) "Assets:Checking" 9 =
      mongo_save_transactions [] [tx1] 0) := by
  refine ⟨?_, ?_, ?_⟩ <;>
    simp [pipelineMarkPhase, mongo_save_transactions, mongoUpsert, mongo_get_transactions,
      mongoOnlyNewCond, mongoDateCond, jsonExtract, textDoc, mongo_update_transaction,
      mongoSetMetaFirst, buildDic, jOfOptBool, tx1, List.mergeSort_singleton,
      List.mergeSort_nil, List.filter, List.lookup, List.foldl_fixed]

/-- C2: `SQLiteStorage.update_transaction` raises `NameError` on every
call (line 201 reads the undefined name `null`), so it can neither set
`pulled_to_file` nor stamp `date_last_pulled`; and
`MongoDBStorage.update_transaction` invoked without `mark_pulled`
(defaulting to `None`) REPLACES the whole `plaid2text` subdocument,
regressing an already-pulled record (`pulled_to_file: true`,
`date_last_pulled` set) to `pulled_to_file = None` — after which the
record is again returned by the `only_new` query. -/
theorem C2_update_transaction_defects :
    (sqlite_update_transaction [] { transaction_id := "t1", fields := [] } (some true) 0 =
      .error (.nameError "null"))
    ∧ (mongo_update_transaction
        [{ id := "t1", tx := tx1,
           meta := [("payee", .jstr "Coffee Shop"), ("pulled_to_file", .jbool true),
                    ("date_last_pulled", .jint 3)] }]
        { transaction_id := "t1", fields := [("payee", .jstr "Coffee Shop")] } none 9 =
      [{ id := "t1", tx := tx1,
         meta := [("payee", .jstr "Coffee Shop"), ("pulled_to_file", .jnull)] }])
    ∧ (mongo_get_transactions
        [{ id := "t1", tx := tx1,
           meta := [("payee", .jstr "Coffee Shop"), ("pulled_to_file", .jnull)] }]
        none none true =
      [{ id := "t1", tx := tx1,
         meta := [("payee", .jstr "Coffee Shop"), ("pulled_to_file", .jnull)] }]) := by
  refine ⟨rfl, rfl, ?_⟩
  simp [mongo_get_transactions, mongoOnlyNewCond, mongoDateCond, jsonExtract, tx1,
    List.mergeSort_singleton, List.filter, List.lookup]

/-- C3: the SQLite upsert violates the no-clobber contract: a fresh insert
stores NULL metadata (not the defaults with `pulled_to_file = false`), and
re-saving the identical batch overwrites the row's metadata with the
batch's metadata — NULL for a source batch — erasing previously written
classification metadata.  (The Mongo backend, by contrast, uses
`$setOnInsert` and preserves `plaid2text` on re-save.) -/
theorem C3_sqlite_save_clobbers_metadata :
    (sqlite_save_transactions [] [tx1] 0 =
      [{ account_id := "a1", transaction_id := "t1", created := 0, updated := 0,
         plaid_json := tx1.toJson, metadata := none }])
    ∧ (sqlite_save_transactions
        [{ account_id := "a1", transaction_id := "t1", created := 0, updated := 0,
           plaid_json := tx1.toJson,
           metadata := some [("pulled_to_file", .jbool true),
                             ("payee", .jstr "Coffee Shop")] }]
        [tx1] 7 =
      [{ account_id := "a1", transaction_id := "t1", created := 0, updated := 7,
         plaid_json := tx1.toJson, metadata := none }])
    ∧ (mongo_save_transactions (mongo_save_transactions [] [tx1] 0) [tx1] 4 =
      mongo_save_transactions [] [tx1] 0) := by
  refine ⟨rfl, rfl, rfl⟩

/-- C4: the SQLite `only_new` filter reads
`json_extract(plaid_json, '$.pulled_to_file')`, but `plaid_json` is the
serialized SOURCE transaction and never carries that key, so the filter is
vacuous: a row whose metadata records `pulled_to_file: true` is still
returned by `get_transactions(only_new=True)`.  The Mongo backend filters
correctly (same pulled document is excluded). -/
theorem C4_sqlite_only_new_vacuous :
    (sqlite_get_transactions
      [{ account_id := "a1", transaction_id := "t1", created := 0, updated := 0,
         plaid_json := tx1.toJson,
         metadata := some [("pulled_to_file", .jbool true)] }]
      none none true =
      [{ account_id := "a1", transaction_id := "t1", created := 0, updated := 0,
         plaid_json := tx1.toJson,
         metadata := some [("pulled_to_file", .jbool true)] }])
    ∧ (mongo_get_transactions
        [{ id := "t1", tx := tx1, meta := [("pulled_to_file", .jbool true)] }]
        none none true = []) := by
  refine ⟨rfl, ?_⟩
  simp [mongo_get_transactions, mongoOnlyNewCond, mongoDateCond, jsonExtract, tx1,
    List.mergeSort_nil, List.filter, List.lookup]

/-- Second sample transaction (earlier date) for the ordering
counterexample. -/
def txA : SourceTx :=
  { transaction_id := "tA", account_id := "a1", date := 3,
    name := "ALPHA MART", amount := 100, pending := false }

/-- Third sample transaction (later date). -/
def txB : SourceTx :=
  { transaction_id := "tB", account_id := "a1", date := 5,
    name := "BETA FUEL", amount := 200, pending := false }

/-- SQLite row for `txA`. -/
def rowA : SqliteRow :=
  { account_id := "a1", transaction_id := "tA", created := 0, updated := 0,
    plaid_json := txA.toJson, metadata := none }

/-- SQLite row for `txB`. -/
def rowB : SqliteRow :=
  { account_id := "a1", transaction_id := "tB", created := 0, updated := 0,
    plaid_json := txB.toJson, metadata := none }

/-- C6 counterexample: the SQLite backend issues no ORDER BY, so a store
whose rows were inserted newest-first is returned newest-first: for the
window [1, 10] the rows come back with dates (5, 3) — not ascending as the
claim requires. -/
theorem C6_counterexample_sqlite_not_sorted :
    (sqlite_get_transactions [rowB, rowA] (some 1) (some 10) true = [rowB, rowA])
    ∧ ((sqlite_get_transactions [rowB, rowA] (some 1) (some 10) true).map
        (fun r => jsonExtract r.plaid_json "date") = [some (.jint 5), some (.jint 3)])
    ∧ ¬ List.Sorted (· ≤ ·)
        ((sqlite_get_transactions [rowB, rowA] (some 1) (some 10) true).map
          (fun r =>
            (match jsonExtract r.plaid_json "date" with
             | some (.jint d) => d
             | _ => 0 : Int))) := by
  refine ⟨rfl, rfl, ?_⟩
  rw [show ((sqlite_get_transactions [rowB, rowA] (some 1) (some 10) true).map
      (fun r =>
        (match jsonExtract r.plaid_json "date" with
         | some (.jint d) => d
         | _ => 0 : Int))) = [5, 3] from rfl]
  simp [List.Sorted]

/-- C6 (amended): for all stores and bounds D1 <= D2, both backends return
exactly the stored transactions whose own date lies in [D1, D2] (the range
is inclusive on both ends); the Mongo backend returns them ordered
ascending by date, while the SQLite backend returns them in table
(insertion) order without sorting.  Stated with `only_new = false`
(`--all-transactions`) to isolate the date filter. -/
theorem C6_amended_inclusive_range (docs : List MongoDoc) (rows : List SqliteRow)
    (D1 D2 : Int) (h : D1 ≤ D2) :
    (mongo_get_transactions docs (some D1) (some D2) false).Perm
        (docs.filter (fun d => decide (D1 ≤ d.tx.date) && decide (d.tx.date ≤ D2)))
    ∧ List.Sorted (fun a b : MongoDoc => a.tx.date ≤ b.tx.date)
        (mongo_get_transactions docs (some D1) (some D2) false)
    ∧ sqlite_get_transactions rows (some D1) (some D2) false =
        rows.filter (fun r =>
          match jsonExtract r.plaid_json "date" with
          | some (.jint d) => decide (D1 ≤ d) && decide (d ≤ D2)
          | _ => false) := by
  refine ⟨?_, ?_, ?_⟩
  · unfold mongo_get_transactions
    refine (List.mergeSort_perm _ _).trans ?_
    rw [List.filter_congr (fun d _ => ?_)]
    simp [mongoOnlyNewCond, mongoDateCond, h]
  · unfold mongo_get_transactions
    have hs := @List.sorted_mergeSort MongoDoc mongoDateLE
      (fun a b c hab hbc => by
        simp only [mongoDateLE, decide_eq_true_eq] at *; omega)
      (fun a b => by simp [mongoDateLE]; omega)
      (docs.filter (fun d => mongoOnlyNewCond false d && mongoDateCond (some D1) (some D2) d.tx.date))
    exact hs.imp (by simp [mongoDateLE])
  · unfold sqlite_get_transactions
    refine List.filter_congr (fun r _ => ?_)
    simp only [sqliteOnlyNewCond, sqliteDateCond, Bool.false_eq_true, if_false, Bool.true_and]
    rw [if_pos h]

/-- The console block's `modified` flag is set exactly when the adopted
(payee, account, tags) differ from the proposal handed to it. -/
theorem promptBlock_modified_iff (p0 a0 : String) (t0 : PyVal) (pt : Bool)
    (pr ar tr : String) :
    (promptBlock p0 a0 t0 pt pr ar tr).2.2.2 = true ↔
      ¬((promptBlock p0 a0 t0 pt pr ar tr).1 = p0
        ∧ (promptBlock p0 a0 t0 pt pr ar tr).2.1 = a0
        ∧ (promptBlock p0 a0 t0 pt pr ar tr).2.2.1 = t0) := by
  by_cases hpt : pt = true <;> by_cases hpr : pr = "" <;> by_cases har : ar = "" <;>
    by_cases htr : tr = "" <;>
    simp [promptBlock, hpt, hpr, har, htr] <;> tauto

/-- C8: with a backing mapping file configured, `get_payee_and_account`
appends a new literal-pattern rule for the description — to the in-memory
mapping sequence and to the mapping file — exactly when no rule matched
originally or the final (payee, account, tags) differs from the original
proposal; when a rule matched and nothing changed, neither the rule set
nor the file is mutated; and the file is only ever extended (existing
lines are never rewritten or removed). -/
theorem C8_rule_learning_iff_changed (mappings : List Mapping) (file : List MapRow)
    (desc defExp : String) (quiet promptTags : Bool) (pr ar tr : String) :
    ((get_payee_and_account mappings true file desc defExp quiet promptTags pr ar tr).appended = true ↔
      ((matchPhase mappings desc defExp).2.2.2 = false ∨
        ((get_payee_and_account mappings true file desc defExp quiet promptTags pr ar tr).payee, (get_payee_and_account mappings true file desc defExp quiet promptTags pr ar tr).account, (get_payee_and_account mappings true file desc defExp quiet promptTags pr ar tr).tags) ≠
          ((matchPhase mappings desc defExp).1, (matchPhase mappings desc defExp).2.1, collapseTags (matchPhase mappings desc defExp).2.2.1)))
    ∧ ((get_payee_and_account mappings true file desc defExp quiet promptTags pr ar tr).appended = true →
        (get_payee_and_account mappings true file desc defExp quiet promptTags pr ar tr).mappings =
          mappings ++ [⟨Pattern.lit desc, (get_payee_and_account mappings true file desc defExp quiet promptTags pr ar tr).payee, (get_payee_and_account mappings true file desc defExp quiet promptTags pr ar tr).account, (get_payee_and_account mappings true file desc defExp quiet promptTags pr ar tr).tags⟩]
        ∧ (get_payee_and_account mappings true file desc defExp quiet promptTags pr ar tr).file =
            file ++ [⟨desc, (get_payee_and_account mappings true file desc defExp quiet promptTags pr ar tr).payee, (get_payee_and_account mappings true file desc defExp quiet promptTags pr ar tr).account,
              if (get_payee_and_account mappings true file desc defExp quiet promptTags pr ar tr).tags.pyLen > 0 then (get_payee_and_account mappings true file desc defExp quiet promptTags pr ar tr).tags else PyVal.str ""⟩])
    ∧ ((get_payee_and_account mappings true file desc defExp quiet promptTags pr ar tr).appended = false → (get_payee_and_account mappings true file desc defExp quiet promptTags pr ar tr).mappings = mappings ∧ (get_payee_and_account mappings true file desc defExp quiet promptTags pr ar tr).file = file)
    ∧ (∃ extra, (get_payee_and_account mappings true file desc defExp quiet promptTags pr ar tr).file = file ++ extra) := by
  rcases hmp : matchPhase mappings desc defExp with ⟨p0, a0, traw, fnd⟩
  unfold get_payee_and_account
  rw [hmp]
  dsimp only
  rcases hpb : (if (quiet && fnd) = true then (p0, a0, collapseTags traw, false)
      else promptBlock p0 a0 (collapseTags traw) promptTags pr ar tr) with ⟨P, A, T, M⟩
  have hM : M = true ↔ ¬(P = p0 ∧ A = a0 ∧ T = collapseTags traw) := by
    by_cases hq : (quiet && fnd) = true
    · rw [if_pos hq] at hpb
      obtain ⟨rfl, rfl, rfl, rfl⟩ := (by simpa [Prod.mk.injEq] using hpb :
        p0 = P ∧ a0 = A ∧ collapseTags traw = T ∧ false = M)
      simp
    · rw [if_neg hq] at hpb
      have hspec := promptBlock_modified_iff p0 a0 (collapseTags traw) promptTags pr ar tr
      rw [hpb] at hspec
      simpa using hspec
  dsimp only
  by_cases hc : (!fnd || M) = true
  · simp only [hc, if_true]
    have hrhs : fnd = false ∨ ((P, A, T) : String × String × PyVal) ≠ (p0, a0, collapseTags traw) := by
      rcases Bool.or_eq_true_iff.mp hc with hfnd | hm
      · exact Or.inl (by simpa using hfnd)
      · refine Or.inr (fun hcontra => (hM.mp hm) ?_)
        simpa [Prod.mk.injEq] using hcontra
    refine ⟨?_, ?_, ?_, ?_⟩
    · simpa using hrhs
    · intro _
      constructor <;> simp [append_mapping_file]
    · simp
    · exact ⟨[⟨desc, P, A, if T.pyLen > 0 then T else PyVal.str ""⟩],
        by simp [append_mapping_file]⟩
  · simp only [hc, if_false]
    have hfnd : fnd = true := by
      rcases fnd with _ | _
      · exact absurd (by simp : (!false || M) = true) hc
      · rfl
    have hm : M = false := by
      rcases M with _ | _
      · rfl
      · exact absurd (by simp : (!fnd || true) = true) hc
    have heq : P = p0 ∧ A = a0 ∧ T = collapseTags traw :=
      not_not.mp (fun hne => (by simp [hm] : ¬ M = true) (hM.mpr hne))
    obtain ⟨rfl, rfl, rfl⟩ := heq
    exact ⟨iff_of_false (by simp) (by simp [hfnd]), by simp,
      fun _ => ⟨rfl, rfl⟩, ⟨[], by simp⟩⟩

/-- Mongo document for `txA` with default metadata. -/
def docA : MongoDoc := { id := "tA", tx := txA, meta := textDoc 0 }

/-- Witness for C10: the plain-text pattern `star` against the description
`MY STARBUCKS` (where the pattern occurs strictly inside, not at the
start). -/
theorem C10_witness :
    (∀ c ∈ "star".data, c ∉ pythonREMetas)
    ∧ ((ruleHits (.regex "star") "MY STARBUCKS" = true ↔
        ∃ t, "star".data.map Char.toLower ++ t = "MY STARBUCKS".data.map Char.toLower)
      ∧ (listContainsSeg ("star".data.map Char.toLower)
            ("MY STARBUCKS".data.map Char.toLower) = true →
          (¬ ∃ t, "star".data.map Char.toLower ++ t =
              "MY STARBUCKS".data.map Char.toLower) →
          ruleHits (.regex "star") "MY STARBUCKS" = false)
      ∧ (ruleHits (Pattern.lit "star") "MY STARBUCKS" = true ↔
          "MY STARBUCKS" = "star")) :=
  ⟨by decide, C10_regex_hits_iff_match_at_start "star" "MY STARBUCKS" (by decide)⟩

/-- Witness for the amended C6 at a concrete one-document store and window
[1, 10]. -/
theorem C6_amended_witness :
    ((1 : Int) ≤ 10)
    ∧ ((mongo_get_transactions [docA] (some 1) (some 10) false).Perm
        ([docA].filter (fun d => decide ((1 : Int) ≤ d.tx.date) && decide (d.tx.date ≤ 10)))
      ∧ List.Sorted (fun a b : MongoDoc => a.tx.date ≤ b.tx.date)
          (mongo_get_transactions [docA] (some 1) (some 10) false)
      ∧ sqlite_get_transactions [rowA] (some 1) (some 10) false =
          [rowA].filter (fun r =>
            match jsonExtract r.plaid_json "date" with
            | some (.jint d) => decide ((1 : Int) ≤ d) && decide (d ≤ 10)
            | _ => false)) :=
  ⟨by decide, C6_amended_inclusive_range [docA] [rowA] 1 10 (by decide)⟩
